import Mathlib

/-!
Shallow embedding of the shop backend (Django project `mysite`, apps `shopapp`
and `authapp`) for the claims about the basket, catalog, review and order
views.  Field and operation names follow `shopapp/views.py`,
`shopapp/models.py` and `authapp/models.py`.  Floats of the source
(`price`, `rating`, `totalCost`) are modelled as rationals, datetimes as
integer timestamps, and database rows as entries of explicit lists.
-/

namespace Shop

/-! ### Outcomes

HTTP outcome of a view, abstracting the DRF status codes used in
`shopapp/views.py`: `ok` for 200/201, `badRequest` for 400, `notFound`
for 404, and `serverError` for an exception that escapes the view
(Django converts an uncaught exception into a 500 response). -/

inductive Outcome where
  | ok
  | badRequest
  | notFound
  | serverError
  deriving DecidableEq

/-! ### Cart data model (`authapp/models.py`)

A `CartItem` row holds a `(cart, product)` pair and a count
(`PositiveIntegerField`).  A cart is the list of its `CartItem` rows, in
insertion order; the user link is implicit because every basket view
operates on the cart of `request.user`. -/

structure CartItem where
  productId : Nat
  count : Nat
  deriving DecidableEq

/-- Row creation or update performed by `BasketAPIView.post` when a matching
row exists: `item.count += count; item.save()` rewrites the one matching row
in place.  Modelled as updating the first row for `productId = pid` (the
views only ever hold one row per product). -/
def cartAdd : List CartItem → Nat → Nat → List CartItem
  | [], pid, c => [⟨pid, c⟩]
  | it :: rest, pid, c =>
    if it.productId = pid then { it with count := it.count + c } :: rest
    else it :: cartAdd rest pid c

/-- Row deletion performed by `cart_item.delete()` in `BasketAPIView.delete`:
removes the row found by `cart.items.filter(product=product).first()`,
which is the first row for the product. -/
def cartDeleteRow : List CartItem → Nat → List CartItem
  | [], _ => []
  | it :: rest, pid => if it.productId = pid then rest else it :: cartDeleteRow rest pid

/-- Row update `cart_item.count = new_count; cart_item.save()` on the row
found by `.first()`: sets the count of the first row for the product. -/
def cartSetCount : List CartItem → Nat → Nat → List CartItem
  | [], _, _ => []
  | it :: rest, pid, n =>
    if it.productId = pid then { it with count := n } :: rest
    else it :: cartSetCount rest pid n

/-- View `BasketAPIView.post` (views.py lines 273 to 302).  `productIds` is the set
of existing `Product` rows, `items` the `CartItem` rows of the cart of the
requesting user, `pid` and `c` the validated payload.  The serializer
(`CartItemSerializer`, `count = IntegerField(min_value=1)`) rejects a count
below one with a 400; a missing product id gives a 400; then
`cart.items.get(product=product)` selects the matching rows: none means
create, exactly one means increment, and more than one raises an uncaught
`MultipleObjectsReturned` (a reviewer should note the views never create a
second row for the same product).  Returns the outcome and the stored cart
rows after the call. -/
def basketPost (productIds : List Nat) (items : List CartItem) (pid : Nat) (c : Int) :
    Outcome × List CartItem :=
  if c < 1 then (.badRequest, items)
  else if pid ∈ productIds then
    match items.filter (fun it => it.productId == pid) with
    | [] => (.ok, items ++ [⟨pid, c.toNat⟩])
    | [it] => (.ok, cartSetCount items pid (it.count + c.toNat))
    | _ => (.serverError, items)
  else (.badRequest, items)

/-- View `BasketAPIView.delete` (views.py lines 304 to 339), for a user whose cart
exists (a missing cart is the separate `Cart.DoesNotExist` 404 branch).  A
missing product id gives a 404; with no matching row the call is a no-op
success; otherwise `new_count = cart_item.count - int(count)` decides between
the 400 branch (negative, nothing saved), row deletion (zero) and a count
update. -/
def basketDelete (productIds : List Nat) (items : List CartItem) (pid : Nat) (c : Int) :
    Outcome × List CartItem :=
  if pid ∈ productIds then
    match items.find? (fun it => it.productId == pid) with
    | none => (.ok, items)
    | some it =>
      let newCount : Int := (it.count : Int) - c
      if newCount < 0 then (.badRequest, items)
      else if newCount = 0 then (.ok, cartDeleteRow items pid)
      else (.ok, cartSetCount items pid newCount.toNat)
  else (.notFound, items)

/-! ### Product rows and the catalog query engine (`CatalogAPIView`)

A `Product` row keeps the fields the catalog pipeline reads: `title`
(`icontains` name filter and title sort), `price`, `date` (timestamp),
`rating`, the `archived`, `freeDelivery` and `available` flags, and the tag
id set.  The `freeDelivery` column is a non-nullable `BooleanField`, so the
`freeDelivery__isnull=True` clauses of the view never match a row. -/

structure Product where
  id : Nat
  title : String
  price : ℚ
  date : Int
  rating : ℚ
  archived : Bool
  freeDelivery : Bool
  available : Bool
  tags : List Nat
  deriving DecidableEq

/-- Sortable columns of `Product` accepted by the `sort` query parameter. -/
inductive SortField where
  | price
  | date
  | rating
  | title
  deriving DecidableEq

/-- Query parameters of `CatalogAPIView` as the view reads them.  `none`
stands for an absent (or falsy, where the view tests truthiness) parameter;
the numeric price bounds are the parsed values the ORM compares with. -/
structure CatalogParams where
  name : Option String := none
  minPrice : Option ℚ := none
  maxPrice : Option ℚ := none
  freeDelivery : Option String := none
  available : Option String := none
  sort : Option (List SortField) := none
  sortType : List String := []
  tags : List Nat := []
  currentPage : Option Int := none

/-- Contiguous containment of a character run, used for `icontains`. -/
def isSegmentOf (needle : List Char) : List Char → Bool
  | [] => needle.isEmpty
  | a :: rest => needle.isPrefixOf (a :: rest) || isSegmentOf needle rest

/-- Case-insensitive substring test backing `title__icontains=name`. -/
def icontains (hay needle : String) : Bool :=
  isSegmentOf needle.toLower.data hay.toLower.data

/-- Three-way comparison from a decidable strict order. -/
def cmp3 {α : Type} [LT α] [DecidableRel (fun a b : α => a < b)] (a b : α) : Ordering :=
  if a < b then .lt else if b < a then .gt else .eq

/-- One `order_by` key: the column comparison for a single sort field. -/
def fieldCmp : SortField → Product → Product → Ordering
  | .price, a, b => cmp3 a.price b.price
  | .date, a, b => cmp3 a.date b.date
  | .rating, a, b => cmp3 a.rating b.rating
  | .title, a, b => cmp3 a.title b.title

/-- Composite `order_by(*ordering)` comparison; a `true` direction flag marks
a `-field` key, whose column comparison is reversed. -/
def lexCmp : List (SortField × Bool) → Product → Product → Ordering
  | [], _, _ => .eq
  | (f, desc) :: rest, a, b =>
    match (if desc then fieldCmp f b a else fieldCmp f a b) with
    | .eq => lexCmp rest a b
    | o => o

/-- The `ordering` list built on views.py lines 113 to 124: sort fields are
zipped with direction tokens, `dec` keeps the plain (ascending) field, `inc`
prepends a minus (descending), any other token is skipped. -/
def buildOrdering (fields : List SortField) (types : List String) : List (SortField × Bool) :=
  (fields.zip types).filterMap fun ft =>
    if ft.2 = "dec" then some (ft.1, false)
    else if ft.2 = "inc" then some (ft.1, true)
    else none

/-- Boolean order relation fed to the sort: a row precedes another when the
composite comparison does not put it strictly after. -/
def sortLe (ordering : List (SortField × Bool)) (a b : Product) : Bool :=
  match lexCmp ordering a b with
  | .gt => false
  | _ => true

/-- The order relation of `sortLe` as a proposition, for the sort. -/
def SortRel (ordering : List (SortField × Bool)) (a b : Product) : Prop :=
  sortLe ordering a b = true

instance (ordering : List (SortField × Bool)) : DecidableRel (SortRel ordering) :=
  fun a b => instDecidableEqBool (sortLe ordering a b) true

/-- Conjunction of the row predicates applied on views.py lines 95 to 111:
name substring, inclusive price bounds, the inverted `freeDelivery`
semantics (a value lowercasing to `false` keeps every row, anything else
keeps rows with `freeDelivery = True` since the isnull clause never
matches), the exact `available` match, and the tag intersection. -/
def matchesFilters (ps : CatalogParams) (p : Product) : Bool :=
  (match ps.name with
   | none => true
   | some s => icontains p.title s) &&
  (match ps.minPrice with
   | none => true
   | some m => decide (m ≤ p.price)) &&
  (match ps.maxPrice with
   | none => true
   | some m => decide (p.price ≤ m)) &&
  (match ps.freeDelivery with
   | none => true
   | some s =>
     if s.toLower = "false" then (p.freeDelivery || !p.freeDelivery) || false
     else p.freeDelivery || false) &&
  (match ps.available with
   | none => true
   | some s => p.available == (s.toLower == "true")) &&
  (match ps.tags with
   | [] => true
   | ts => p.tags.any fun t => ts.contains t)

/-- View method `CatalogAPIView.filter_queryset` (views.py lines 82 to 126): the row
filters followed by `order_by` when a `sort` parameter is present.  The
queryset starts from `Product.objects.all()` of `get_queryset`, with no
`archived` restriction. -/
def filterQueryset (ps : CatalogParams) (products : List Product) : List Product :=
  let qs := products.filter (matchesFilters ps)
  match ps.sort with
  | none => qs
  | some fields => qs.insertionSort (SortRel (buildOrdering fields ps.sortType))

/-- Django `Paginator.num_pages` for `per_page = 10`, `orphans = 0` and the default
`allow_empty_first_page = True`: the ceiling of `max(1, count) / 10`, so an
empty queryset still reports one (empty) page. -/
def numPages (count : Nat) : Nat := (max 1 count + 9) / 10

/-- Django `Paginator.get_page`: an absent or non-integer `currentPage` falls back
to page 1 (`PageNotAnInteger`), a number below 1 or above `num_pages` falls
back to the last page (`EmptyPage`). -/
def resolvePage (param : Option Int) (count : Nat) : Nat :=
  match param with
  | none => 1
  | some n =>
    if n < 1 then numPages count
    else if (numPages count : Int) < n then numPages count
    else n.toNat

/-- The object list slice of page `number`: `object_list[(number-1)*10 : number*10]`. -/
def pageSlice (l : List Product) (number : Nat) : List Product :=
  (l.drop ((number - 1) * 10)).take 10

/-- Body of the catalog response: the serialized page plus the pagination
metadata `currentPage` and `lastPage`. -/
structure CatalogResponse where
  items : List Product
  currentPage : Nat
  lastPage : Nat
  deriving DecidableEq

/-- View `CatalogAPIView.get` (views.py lines 135 to 151): filter and sort, then
paginate with page size 10 and report the resolved page and the page count. -/
def catalogGet (ps : CatalogParams) (products : List Product) : CatalogResponse :=
  let qs := filterQueryset ps products
  let number := resolvePage ps.currentPage qs.length
  { items := pageSlice qs number
    currentPage := number
    lastPage := numPages qs.length }

/-! ### Review aggregation (`ReviewViewSet.create` and `update_product_fields`)

Only the aggregate fields touched by review creation are modelled: the list
of review rate values of a product, and the derived `rating` and
`reviews_count` columns written back on every creation. -/

structure ProductAgg where
  rates : List Int
  rating : ℚ
  reviewsCount : Nat
  deriving DecidableEq

/-- Aggregate `Avg(rate)` over the reviews of a product, as a rational. -/
def avgRate (rs : List Int) : ℚ := (rs.sum : ℚ) / rs.length

/-- View `ReviewViewSet.create` (views.py lines 176 to 187): persists the new
review, then recomputes `reviews_count = product.reviews.count()` and
`rating = Avg(rate)` and saves the product.  The `post_save` receiver
`update_product_fields` (models.py lines 153 to 158) repeats the same
recomputation, so running it once more is the identity on the aggregates. -/
def reviewCreate (p : ProductAgg) (rate : Int) : ProductAgg :=
  let rates := p.rates ++ [rate]
  { rates := rates, rating := avgRate rates, reviewsCount := rates.length }

/-- A product with no reviews, as created by the admin: `rating` defaults to
0 and `reviews_count` to 0 (models.py lines 95 to 96). -/
def emptyAgg : ProductAgg := { rates := [], rating := 0, reviewsCount := 0 }

/-! ### Orders (`OrderAPIView`, `OrderDetailView`)

An `Order` row keeps its owner, creation timestamp, attached product ids,
the three nullable lookup references (by row id) and `totalCost`.  The
lookup tables `DeliveryType`, `PaymentType` and `OrderStatus` are modelled
by their row ids; a `DeliveryType` row additionally carries its price. -/

structure OrderRec where
  id : Nat
  user : Nat
  createdAt : Int
  productIds : List Nat
  status : Option Nat
  deliveryType : Option Nat
  paymentType : Option Nat
  totalCost : ℚ
  deriving DecidableEq

structure DeliveryTypeRow where
  id : Nat
  price : ℚ
  deriving DecidableEq

/-- The product loop of `OrderAPIView.post` (views.py lines 372 to 375):
`Product.objects.get(id=...)` then `order.products.add(product)` for each
payload entry.  A missing id raises `Product.DoesNotExist`, which nothing
catches: the loop stops there and the link rows already written stay.
Returns the attached ids and whether the loop ran to completion. -/
def attachProducts (existing : List Nat) : List Nat → List Nat → List Nat × Bool
  | acc, [] => (acc, true)
  | acc, pid :: rest =>
    if pid ∈ existing then attachProducts existing (acc ++ [pid]) rest
    else (acc, false)

/-- View `OrderAPIView.post` (views.py lines 358 to 390): creates an empty order
row for the requesting user first, attaches the payload products, then
resolves the placeholder lookup rows with `get_object_or_404`
(`DeliveryType` 3, `PaymentType` 3, `OrderStatus` 7), saves, and clears the
cart rows of the user.  An invalid product id escapes as an uncaught
`Product.DoesNotExist` (HTTP 500) and leaves the draft row, with the
products attached before the failure, in the store; a missing lookup row
gives a 404 with the draft likewise persisted.  The new row id is taken as
one past the number of stored orders, standing for the autoincrement key. -/
def orderPost (existing deliveryTypeIds paymentTypeIds statusIds : List Nat)
    (orders : List OrderRec) (cart : List CartItem) (user : Nat) (now : Int)
    (reqProducts : List Nat) : Outcome × List OrderRec × List CartItem :=
  let att := attachProducts existing [] reqProducts
  let draft : OrderRec :=
    { id := orders.length + 1, user := user, createdAt := now, productIds := att.1,
      status := none, deliveryType := none, paymentType := none, totalCost := 0 }
  if !att.2 then (.serverError, orders ++ [draft], cart)
  else if 3 ∉ deliveryTypeIds then (.notFound, orders ++ [draft], cart)
  else if 3 ∉ paymentTypeIds then (.notFound, orders ++ [draft], cart)
  else if 7 ∉ statusIds then (.notFound, orders ++ [draft], cart)
  else
    (.ok,
     orders ++ [{ draft with deliveryType := some 3, paymentType := some 3, status := some 7 }],
     [])

/-- One entry of the `products` list of the finalize payload; the view reads
`price` and `count` from the raw request data (not from the product table). -/
structure FinalizeItem where
  price : ℚ
  count : Int
  deriving DecidableEq

/-- Payload of `OrderDetailView.post`: the product list and the two tokens. -/
structure FinalizePayload where
  products : List FinalizeItem := []
  deliveryType : Option String := none
  paymentType : Option String := none

/-- The running sum of views.py lines 430 to 435: unit price times count
over the payload product list. -/
def payloadTotal (items : List FinalizeItem) : ℚ :=
  (items.map fun it => it.price * (it.count : ℚ)).sum

/-- Lookup `DeliveryType.objects.get(pk=i)` over the delivery lookup table. -/
def findDelivery (dts : List DeliveryTypeRow) (i : Nat) : Option DeliveryTypeRow :=
  dts.find? (fun d => d.id == i)

/-- View `OrderDetailView.post` (views.py lines 416 to 459): on a missing order a
404; otherwise recomputes the total from the payload, picks `DeliveryType`
row 1 on the token `express` and row 2 on anything else (adding its price),
`PaymentType` row 2 on `someone` and row 1 otherwise, sets the status to
`OrderStatus` row 1 (the awaiting-payment row) and saves.  A missing lookup
row raises an uncaught `DoesNotExist` (HTTP 500, nothing saved). -/
def orderDetailPost (orders : List OrderRec) (dts : List DeliveryTypeRow)
    (paymentTypeIds statusIds : List Nat) (pk : Nat) (payload : FinalizePayload) :
    Outcome × List OrderRec :=
  match orders.find? (fun o => o.id == pk) with
  | none => (.notFound, orders)
  | some _ =>
    let base := payloadTotal payload.products
    let dtId := if payload.deliveryType = some "express" then 1 else 2
    match findDelivery dts dtId with
    | none => (.serverError, orders)
    | some dt =>
      let ptId := if payload.paymentType = some "someone" then 2 else 1
      if ptId ∉ paymentTypeIds then (.serverError, orders)
      else if 1 ∉ statusIds then (.serverError, orders)
      else
        (.ok,
         orders.map fun o =>
           if o.id = pk then
             { o with deliveryType := some dtId, paymentType := some ptId,
                      status := some 1, totalCost := base + dt.price }
           else o)

/-- View `OrderAPIView.get` (views.py lines 347 to 356): serializes
`Order.objects.all()`, which the model `Meta.ordering = [-createdAt]`
(models.py lines 237 to 238) returns newest first.  The requesting user is
passed because the view receives it, but the queryset never restricts by
it. -/
def orderGet (user : Nat) (orders : List OrderRec) : List OrderRec :=
  orders.insertionSort (fun a b => b.createdAt ≤ a.createdAt)

/-! ### Helper lemmas about the cart row operations -/

/-- Deleting the row for a product that no earlier row carries removes
exactly the appended row. -/
theorem cartDeleteRow_append_singleton {items : List CartItem} {pid : Nat} {n : Nat}
    (h : ∀ it ∈ items, it.productId ≠ pid) :
    cartDeleteRow (items ++ [⟨pid, n⟩]) pid = items := by
  induction items with
  | nil => simp [cartDeleteRow]
  | cons a rest ih =>
    have ha : a.productId ≠ pid := h a (by simp)
    have ih2 := ih fun it hmem => h it (by simp [hmem])
    simp [cartDeleteRow, if_neg ha, ih2]

/-- A row search over a list with a single matching row finds that row. -/
theorem find?_of_filter_singleton {items : List CartItem} {pid : Nat} {it : CartItem}
    (h : items.filter (fun x => x.productId == pid) = [it]) :
    items.find? (fun x => x.productId == pid) = some it := by
  induction items with
  | nil => simp at h
  | cons a rest ih =>
    rw [List.filter_cons] at h
    by_cases ha : (a.productId == pid) = true
    · rw [if_pos ha] at h
      obtain ⟨rfl, -⟩ : a = it ∧ rest.filter (fun x => x.productId == pid) = [] := by
        simpa using h
      exact List.find?_cons_of_pos rest ha
    · rw [if_neg ha] at h
      rw [List.find?_cons_of_neg rest ha]
      exact ih h

/-- Setting the count on the row for `pid` rewrites the unique matching row
and keeps every other row. -/
theorem filter_cartSetCount {items : List CartItem} {pid : Nat} {it : CartItem} (n : Nat)
    (h : items.filter (fun x => x.productId == pid) = [it]) :
    (cartSetCount items pid n).filter (fun x => x.productId == pid) = [{ it with count := n }] := by
  induction items with
  | nil => simp at h
  | cons a rest ih =>
    rw [List.filter_cons] at h
    by_cases ha : (a.productId == pid) = true
    · rw [if_pos ha] at h
      obtain ⟨rfl, hrest⟩ : a = it ∧ rest.filter (fun x => x.productId == pid) = [] := by
        simpa using h
      have ha2 : a.productId = pid := by simpa using ha
      simp only [cartSetCount, if_pos ha2, List.filter_cons]
      rw [if_pos (show (({ a with count := n } : CartItem).productId == pid) = true by simpa using ha)]
      simpa using hrest
    · rw [if_neg ha] at h
      have ha2 : ¬ a.productId = pid := by simpa using ha
      simp only [cartSetCount, if_neg ha2, List.filter_cons]
      rw [if_neg ha]
      exact ih h

/-- Two successive count updates on the same product collapse to the last. -/
theorem cartSetCount_cartSetCount (items : List CartItem) (pid : Nat) (n m : Nat) :
    cartSetCount (cartSetCount items pid n) pid m = cartSetCount items pid m := by
  induction items with
  | nil => simp [cartSetCount]
  | cons a rest ih =>
    by_cases ha : a.productId = pid
    · simp [cartSetCount, ha]
    · simp [cartSetCount, ha, ih]

/-- Writing back the count a row already holds is the identity. -/
theorem cartSetCount_self {items : List CartItem} {pid : Nat} {it : CartItem}
    (h : items.filter (fun x => x.productId == pid) = [it]) :
    cartSetCount items pid it.count = items := by
  induction items with
  | nil => simp at h
  | cons a rest ih =>
    rw [List.filter_cons] at h
    by_cases ha : (a.productId == pid) = true
    · rw [if_pos ha] at h
      obtain ⟨rfl, -⟩ : a = it ∧ rest.filter (fun x => x.productId == pid) = [] := by
        simpa using h
      simp only [cartSetCount, if_pos (show a.productId = pid by simpa using ha)]
    · rw [if_neg ha] at h
      simp [cartSetCount, show ¬ a.productId = pid by simpa using ha, ih h]

/-- The matching row of a single-match list is a member of it. -/
theorem mem_of_filter_singleton {items : List CartItem} {pid : Nat} {it : CartItem}
    (h : items.filter (fun x => x.productId == pid) = [it]) : it ∈ items := by
  have : it ∈ items.filter (fun x => x.productId == pid) := by simp [h]
  exact (List.mem_filter.mp this).1

/-! ### Claim C1: basket Add creates or increments a line item -/

/-- C1: for an authenticated user and an existing product `pid`, basket
`Add(pid, c)` with `c ≥ 1` succeeds and, when no `CartItem` row for the
product exists, appends a new row with count `c`; when one row exists, it
rewrites exactly that row to its old count plus `c`.  In particular
`Add(7, 2)` followed by `Add(7, 3)` leaves exactly one line item for
product 7 with count 5. -/
theorem basketPost_add_spec (pids : List Nat) (items : List CartItem) (pid : Nat) (c : Int)
    (hc : 1 ≤ c) (hp : pid ∈ pids) :
    (items.filter (fun it => it.productId == pid) = [] →
      basketPost pids items pid c = (.ok, items ++ [⟨pid, c.toNat⟩])) ∧
    (∀ it, items.filter (fun it => it.productId == pid) = [it] →
      basketPost pids items pid c = (.ok, cartSetCount items pid (it.count + c.toNat))) ∧
    basketPost [7] (basketPost [7] [] 7 2).2 7 3 = (.ok, [⟨7, 5⟩]) := by
  have hc0 : ¬ c < 1 := by omega
  refine ⟨fun hnil => ?_, fun it hone => ?_, by decide⟩
  · simp [basketPost, hc0, hp, hnil]
  · simp [basketPost, hc0, hp, hone]

/-- Instance of the C1 theorem at a concrete cart. -/
theorem basketPost_add_spec_witness :
    basketPost [1, 7] [⟨7, 4⟩] 7 2 = (.ok, [⟨7, 6⟩]) := by
  have h := (basketPost_add_spec [1, 7] [⟨7, 4⟩] 7 2 (by decide) (by decide)).2.1 ⟨7, 4⟩ (by decide)
  exact h.trans (by decide)

/-! ### Claim C2: basket Remove validates the decrement -/

/-- C2: for a cart holding a row of count `k` for the existing product
`pid`, `Remove(pid, c)` with `c > k` fails with a 400 and leaves the stored
rows untouched; with `c = k` it deletes the row; with `c < k` it persists
the count `k - c`. -/
theorem basketDelete_spec (pids : List Nat) (items : List CartItem) (pid : Nat)
    (c : Int) (it0 : CartItem) (hp : pid ∈ pids)
    (hfind : items.find? (fun it => it.productId == pid) = some it0) :
    ((it0.count : Int) < c → basketDelete pids items pid c = (.badRequest, items)) ∧
    (c = (it0.count : Int) → basketDelete pids items pid c = (.ok, cartDeleteRow items pid)) ∧
    (c < (it0.count : Int) →
      basketDelete pids items pid c =
        (.ok, cartSetCount items pid ((it0.count : Int) - c).toNat)) := by
  refine ⟨fun h => ?_, fun h => ?_, fun h => ?_⟩
  · have h1 : (it0.count : Int) - c < 0 := by omega
    simp [basketDelete, hp, hfind, h1]
  · simp [basketDelete, hp, hfind, h]
  · have h1 : ¬ ((it0.count : Int) - c < 0) := by omega
    have h2 : ¬ ((it0.count : Int) - c = 0) := by omega
    simp [basketDelete, hp, hfind, h1, h2]

/-- Instances of the C2 theorem on a concrete cart: an overdraft is
rejected without a state change, and a plain decrement is persisted. -/
theorem basketDelete_spec_witness :
    basketDelete [5] [⟨5, 3⟩] 5 4 = (.badRequest, [⟨5, 3⟩]) ∧
    basketDelete [5] [⟨5, 3⟩] 5 1 = (.ok, [⟨5, 2⟩]) := by
  have h := basketDelete_spec [5] [⟨5, 3⟩] 5 4 ⟨5, 3⟩ (by decide) (by decide)
  have h2 := basketDelete_spec [5] [⟨5, 3⟩] 5 1 ⟨5, 3⟩ (by decide) (by decide)
  exact ⟨h.1 (by decide), (h2.2.2 (by decide)).trans (by decide)⟩

/-! ### Claim C3: Add then Remove of the same count is the identity -/

/-- C3: on a well-formed cart (at most one row per product, counts at least
one), `Add(pid, c)` followed by `Remove(pid, c)` for an existing product and
`c ≥ 1` succeeds and restores exactly the prior stored rows: every other
line item is untouched and the row for `pid` carries its original count, or
is absent again when the product was not in the cart. -/
theorem basket_add_remove_roundtrip (pids : List Nat) (items : List CartItem)
    (pid : Nat) (c : Int) (hc : 1 ≤ c) (hp : pid ∈ pids)
    (huniq : (items.filter (fun it => it.productId == pid)).length ≤ 1)
    (hpos : ∀ it ∈ items, 1 ≤ it.count) :
    (basketPost pids items pid c).1 = .ok ∧
    basketDelete pids (basketPost pids items pid c).2 pid c = (.ok, items) := by
  have hc0 : ¬ c < 1 := by omega
  rcases hfe : items.filter (fun it => it.productId == pid) with - | ⟨it, rest⟩
  · have hforall : ∀ x ∈ items, x.productId ≠ pid := by
      intro x hx
      simpa using List.filter_eq_nil_iff.mp hfe x hx
    have hpost : basketPost pids items pid c = (.ok, items ++ [⟨pid, c.toNat⟩]) := by
      simp [basketPost, hc0, hp, hfe]
    rw [hpost]
    refine ⟨rfl, ?_⟩
    have hnone : items.find? (fun x => x.productId == pid) = none :=
      List.find?_eq_none.mpr fun x hx => by simpa using hforall x hx
    have hzero : ((c.toNat : Int) - c) = 0 := by omega
    simp [basketDelete, hp, hnone, hzero, cartDeleteRow_append_singleton hforall]
    intro h
    exact absurd (by omega : c ⊔ 0 - c = 0) h
  · rcases rest with - | ⟨it2, rest2⟩
    · have hitmem := mem_of_filter_singleton hfe
      have hit1 : 1 ≤ it.count := hpos it hitmem
      have hpost : basketPost pids items pid c =
          (.ok, cartSetCount items pid (it.count + c.toNat)) := by
        simp [basketPost, hc0, hp, hfe]
      rw [hpost]
      refine ⟨rfl, ?_⟩
      have hfind2 : (cartSetCount items pid (it.count + c.toNat)).find?
          (fun x => x.productId == pid) = some { it with count := it.count + c.toNat } :=
        find?_of_filter_singleton (filter_cartSetCount _ hfe)
      have key : ((it.count + c.toNat : Nat) : Int) - c = (it.count : Int) := by omega
      have hlt : ¬ ((it.count : Int) < 0) := by omega
      have hne : ¬ ((it.count : Int) = 0) := by omega
      simp only [basketDelete, hfind2, if_pos hp]
      rw [key]
      rw [if_neg hlt, if_neg hne]
      rw [Int.toNat_natCast, cartSetCount_cartSetCount, cartSetCount_self hfe]
    · exfalso
      rw [hfe] at huniq
      simp at huniq

/-- Instance of the C3 theorem on a concrete cart. -/
theorem basket_add_remove_roundtrip_witness :
    basketDelete [3, 9] (basketPost [3, 9] [⟨9, 2⟩] 9 5).2 9 5 = (.ok, [⟨9, 2⟩]) :=
  (basket_add_remove_roundtrip [3, 9] [⟨9, 2⟩] 9 5 (by decide) (by decide)
    (by decide) (by decide)).2

/-! ### Helper lemmas about the catalog pipeline -/

/-- The ordered queryset is a permutation of the plain filter of the
product table. -/
theorem filterQueryset_perm (ps : CatalogParams) (products : List Product) :
    (filterQueryset ps products).Perm (products.filter (matchesFilters ps)) := by
  unfold filterQueryset
  cases hs : ps.sort with
  | none => exact List.Perm.refl _
  | some fields => exact List.perm_insertionSort _ _

/-- The single descending price key orders rows by reverse price. -/
theorem sortRel_price_desc (a b : Product) :
    SortRel [(SortField.price, true)] a b ↔ b.price ≤ a.price := by
  rcases lt_trichotomy b.price a.price with h | h | h
  · simp [SortRel, sortLe, lexCmp, fieldCmp, cmp3, h, le_of_lt h]
  · simp [SortRel, sortLe, lexCmp, fieldCmp, cmp3, h]
  · simp [SortRel, sortLe, lexCmp, fieldCmp, cmp3, h, lt_asymm h, not_le.mpr h]

/-- The page items are a slice of the ordered queryset. -/
theorem catalogGet_items_eq (ps : CatalogParams) (products : List Product) :
    (catalogGet ps products).items =
      pageSlice (filterQueryset ps products)
        (resolvePage ps.currentPage (filterQueryset ps products).length) := rfl

/-- The queryset never reads the `currentPage` parameter. -/
theorem filterQueryset_currentPage (ps : CatalogParams) (x : Option Int)
    (products : List Product) :
    filterQueryset { ps with currentPage := x } products = filterQueryset ps products := rfl

/-! ### Claim C4: catalog pagination -/

/-- C4 as stated fails at an empty match set: on zero matching products the
Django paginator still reports one (empty) page, so `lastPage` is 1 while
the plain ceiling of the match count over 10 is 0. -/
theorem catalog_lastPage_counterexample :
    (catalogGet {} ([] : List Product)).lastPage = 1 ∧
    ¬ ((catalogGet {} ([] : List Product)).lastPage =
        ((filterQueryset {} ([] : List Product)).length + 9) / 10) := by decide

/-- C4 amended: for a match set of size `N` the catalog reports
`lastPage = max 1 (ceil(N / 10))` (the paginator reports at least one page,
so the plain ceiling fails only at `N = 0`), every page holds at most 10
items, and a requested page beyond `lastPage` returns the contents of the
last page. -/
theorem catalog_pagination_spec (ps : CatalogParams) (products : List Product) :
    (catalogGet ps products).lastPage =
      max 1 (((filterQueryset ps products).length + 9) / 10) ∧
    (catalogGet ps products).items.length ≤ 10 ∧
    ∀ n : Int, (numPages (filterQueryset ps products).length : Int) < n →
      (catalogGet { ps with currentPage := some n } products).items =
        (catalogGet
          { ps with currentPage := some ((numPages (filterQueryset ps products).length : Nat) : Int) }
          products).items := by
  refine ⟨?_, ?_, ?_⟩
  · show numPages (filterQueryset ps products).length = _
    unfold numPages
    omega
  · rw [catalogGet_items_eq]
    unfold pageSlice
    simp [List.length_take]
  · intro n hn
    have h1 : 1 ≤ numPages (filterQueryset ps products).length := by
      unfold numPages
      omega
    rw [catalogGet_items_eq, catalogGet_items_eq,
        filterQueryset_currentPage, filterQueryset_currentPage]
    show pageSlice _ (resolvePage (some n) (filterQueryset ps products).length) =
      pageSlice _ (resolvePage (some ((numPages (filterQueryset ps products).length : Nat) : Int))
        (filterQueryset ps products).length)
    have e1 : resolvePage (some n) (filterQueryset ps products).length =
        numPages (filterQueryset ps products).length := by
      simp only [resolvePage]
      rw [if_neg (by omega), if_pos hn]
    have e2 : resolvePage
        (some ((numPages (filterQueryset ps products).length : Nat) : Int))
        (filterQueryset ps products).length =
        numPages (filterQueryset ps products).length := by
      simp only [resolvePage]
      rw [if_neg (by omega), if_neg (by omega)]
      exact Int.toNat_natCast _
    rw [e1, e2]
    rfl

/-- Instance of the C4 theorem: on an empty store, requesting page 5 yields
the same (empty) contents as the last page, page 1. -/
theorem catalog_pagination_spec_witness :
    (catalogGet { currentPage := some 5 } ([] : List Product)).items =
      (catalogGet { currentPage := some 1 } ([] : List Product)).items :=
  (catalog_pagination_spec {} []).2.2 5 (by decide)

/-! ### Claim C5: archived products and the catalog -/

/-- A concrete archived product row. -/
def archivedProduct : Product :=
  { id := 1, title := "x", price := 10, date := 0, rating := 0,
    archived := true, freeDelivery := false, available := true, tags := [] }

/-- C5 as stated fails: `CatalogAPIView.get_queryset` returns
`Product.objects.all()` without an `archived` filter, so a store holding a
single archived product serves it on the first catalog page. -/
theorem catalog_archived_counterexample :
    archivedProduct.archived = true ∧
    archivedProduct ∈ (catalogGet {} [archivedProduct]).items := by decide

/-- C5 amended: the catalog applies no `archived` restriction at all.  The
ordered queryset is a permutation of the filter of the full product table,
the filter predicate is insensitive to the `archived` flag, and every
served item is a stored product matching the filters, archived or not. -/
theorem catalog_ignores_archived (ps : CatalogParams) (products : List Product) :
    (filterQueryset ps products).Perm (products.filter (matchesFilters ps)) ∧
    (∀ p b, matchesFilters ps { p with archived := b } = matchesFilters ps p) ∧
    (∀ p, p ∈ (catalogGet ps products).items →
      p ∈ products ∧ matchesFilters ps p = true) := by
  refine ⟨filterQueryset_perm ps products, fun p b => rfl, fun p hp => ?_⟩
  rw [catalogGet_items_eq] at hp
  have h1 : p ∈ filterQueryset ps products :=
    List.mem_of_mem_drop (List.mem_of_mem_take hp)
  have h2 : p ∈ products.filter (matchesFilters ps) :=
    (filterQueryset_perm ps products).mem_iff.mp h1
  exact List.mem_filter.mp h2

/-- Instance of the C5 theorem at the archived product. -/
theorem catalog_ignores_archived_witness :
    archivedProduct ∈ [archivedProduct] ∧ matchesFilters {} archivedProduct = true :=
  (catalog_ignores_archived {} [archivedProduct]).2.2 archivedProduct (by decide)

/-! ### Claim C6: the price window query with the inverted `inc` token -/

/-- The query parameters of the C6 scenario. -/
def c6Params : CatalogParams :=
  { minPrice := some 100, maxPrice := some 200, sort := some [.price], sortType := ["inc"] }

/-- C6: the query `minPrice=100, maxPrice=200, sort=price, sortType=inc`
yields exactly the stored products with price in the inclusive interval
from 100 to 200, ordered by descending price (the `inc` token maps to the
descending key), and the response page serves the first ten of them. -/
theorem catalog_price_window_spec (products : List Product) :
    (filterQueryset c6Params products).Perm
      (products.filter fun p => decide (100 ≤ p.price) && decide (p.price ≤ 200)) ∧
    (filterQueryset c6Params products).Pairwise (fun a b => b.price ≤ a.price) ∧
    (catalogGet c6Params products).items = (filterQueryset c6Params products).take 10 := by
  haveI htotal : IsTotal Product (SortRel [(SortField.price, true)]) := ⟨fun a b => by
    rw [sortRel_price_desc, sortRel_price_desc]
    exact le_total _ _⟩
  haveI htrans : IsTrans Product (SortRel [(SortField.price, true)]) := ⟨fun a b c hab hbc => by
    rw [sortRel_price_desc] at hab hbc ⊢
    exact le_trans hbc hab⟩
  refine ⟨?_, ?_, rfl⟩
  · refine (filterQueryset_perm c6Params products).trans ?_
    rw [List.filter_congr fun p _ => ?_]
    simp [matchesFilters, c6Params]
  · have hb : buildOrdering [SortField.price] ["inc"] = [(SortField.price, true)] := rfl
    show ((products.filter (matchesFilters c6Params)).insertionSort
        (SortRel (buildOrdering [SortField.price] ["inc"]))).Pairwise _
    rw [hb]
    exact (List.sorted_insertionSort (SortRel [(SortField.price, true)]) _).imp
      fun h => (sortRel_price_desc _ _).mp h

/-! ### Claim C7: review creation keeps the product aggregates -/

/-- Review creations starting from any product state accumulate the rate
values in order. -/
theorem foldl_reviewCreate_rates (rs : List Int) (q : ProductAgg) :
    (rs.foldl reviewCreate q).rates = q.rates ++ rs := by
  induction rs generalizing q with
  | nil => simp
  | cons r rest ih => simp [List.foldl_cons, ih, reviewCreate]

/-- After at least one review creation the stored aggregates are the count
and the mean over all accumulated rates. -/
theorem foldl_reviewCreate_agg (rs : List Int) (q : ProductAgg) (h : rs ≠ []) :
    (rs.foldl reviewCreate q).rating = avgRate (q.rates ++ rs) ∧
    (rs.foldl reviewCreate q).reviewsCount = (q.rates ++ rs).length := by
  induction rs generalizing q with
  | nil => simp at h
  | cons r rest ih =>
    by_cases hr : rest = []
    · subst hr
      simp [reviewCreate]
    · have hrec := ih (reviewCreate q r) hr
      simp only [List.foldl_cons] at hrec ⊢
      rw [hrec.1, hrec.2] at *
      constructor <;> simp [reviewCreate]

/-- C7: every successful review creation leaves `reviews_count` equal to the
number of stored reviews and `rating` equal to their unweighted mean; in
particular inserting rates 4, 5 and 3 in any order onto a fresh product
yields rating 4 and count 3. -/
theorem review_aggregates_spec (p : ProductAgg) (r : Int) :
    (reviewCreate p r).reviewsCount = (reviewCreate p r).rates.length ∧
    (reviewCreate p r).rating = avgRate (reviewCreate p r).rates ∧
    ∀ rs : List Int, rs.Perm [4, 5, 3] →
      (rs.foldl reviewCreate emptyAgg).rating = 4 ∧
      (rs.foldl reviewCreate emptyAgg).reviewsCount = 3 := by
  refine ⟨rfl, rfl, fun rs hperm => ?_⟩
  have hne : rs ≠ [] := by
    intro h
    subst h
    simpa using hperm.length_eq
  have hsum : rs.sum = 12 := by
    rw [hperm.sum_eq]
    rfl
  have hlen : rs.length = 3 := by
    rw [hperm.length_eq]
    rfl
  obtain ⟨h1, h2⟩ := foldl_reviewCreate_agg rs emptyAgg hne
  refine ⟨?_, ?_⟩
  · rw [h1]
    unfold avgRate emptyAgg
    simp only [List.nil_append, hsum, hlen]
    norm_num
  · rw [h2]
    simp [emptyAgg, hlen]

/-- Instance of the C7 theorem: rates 5, 3, 4 (a permutation of 4, 5, 3)
give rating 4 and count 3. -/
theorem review_aggregates_spec_witness :
    (([5, 3, 4] : List Int).foldl reviewCreate emptyAgg).rating = 4 ∧
    (([5, 3, 4] : List Int).foldl reviewCreate emptyAgg).reviewsCount = 3 :=
  (review_aggregates_spec emptyAgg 1).2.2 [5, 3, 4] (by decide)

/-! ### Claim C8: order placement with an invalid product id -/

/-- C8 names a NotFound failure with no partial order, but placing an order
whose list names the missing product 99 (store products 1 and 2, lookup
rows present) escapes with an uncaught exception instead, and the draft
order row created up front stays persisted with product 1 attached. -/
theorem orderPost_missing_product_bug :
    orderPost [1, 2] [3] [3] [7] [] [] 1 0 [1, 99] =
      (.serverError,
       [{ id := 1, user := 1, createdAt := 0, productIds := [1], status := none,
          deliveryType := none, paymentType := none, totalCost := 0 }], []) ∧
    Outcome.serverError ≠ Outcome.notFound := by decide

/-! ### Claim C9: order finalization -/

/-- C9: finalizing an existing order sets `totalCost` to the payload sum of
price times count plus the price of the selected delivery row (row 1 for
the token `express`, row 2 for anything else), sets the payment reference
from the `someone` token, and sets the status to the awaiting-payment
lookup row. -/
theorem orderDetailPost_finalize_spec (orders : List OrderRec) (dts : List DeliveryTypeRow)
    (pts sts : List Nat) (pk : Nat) (payload : FinalizePayload) (o0 : OrderRec)
    (d1 d2 : DeliveryTypeRow)
    (hfind : orders.find? (fun o => o.id == pk) = some o0)
    (h1 : findDelivery dts 1 = some d1) (h2 : findDelivery dts 2 = some d2)
    (hpt1 : 1 ∈ pts) (hpt2 : 2 ∈ pts) (hst : 1 ∈ sts) :
    orderDetailPost orders dts pts sts pk payload =
      (.ok, orders.map fun o =>
        if o.id = pk then
          { o with
            deliveryType := some (if payload.deliveryType = some "express" then 1 else 2),
            paymentType := some (if payload.paymentType = some "someone" then 2 else 1),
            status := some 1,
            totalCost := payloadTotal payload.products +
              (if payload.deliveryType = some "express" then d1.price else d2.price) }
        else o) := by
  by_cases hdt : payload.deliveryType = some "express" <;>
    by_cases hptk : payload.paymentType = some "someone" <;>
    simp [orderDetailPost, hfind, hdt, hptk, h1, h2, hpt1, hpt2, hst]

/-- Instance of the C9 theorem: express delivery at price 500 on a payload
of two units at price 100 gives total cost 700 and the awaiting-payment
status. -/
theorem orderDetailPost_finalize_spec_witness :
    orderDetailPost
      [{ id := 1, user := 1, createdAt := 0, productIds := [], status := none,
         deliveryType := none, paymentType := none, totalCost := 0 }]
      [{ id := 1, price := 500 }, { id := 2, price := 200 }] [1, 2] [1] 1
      { products := [{ price := 100, count := 2 }], deliveryType := some "express" } =
      (.ok, [{ id := 1, user := 1, createdAt := 0, productIds := [], status := some 1,
               deliveryType := some 1, paymentType := some 1, totalCost := 700 }]) := by
  have h := orderDetailPost_finalize_spec
    [{ id := 1, user := 1, createdAt := 0, productIds := [], status := none,
       deliveryType := none, paymentType := none, totalCost := 0 }]
    [{ id := 1, price := 500 }, { id := 2, price := 200 }] [1, 2] [1] 1
    { products := [{ price := 100, count := 2 }], deliveryType := some "express" }
    { id := 1, user := 1, createdAt := 0, productIds := [], status := none,
      deliveryType := none, paymentType := none, totalCost := 0 }
    { id := 1, price := 500 } { id := 2, price := 200 }
    rfl rfl rfl (by decide) (by decide) (by decide)
  refine h.trans ?_
  simp [payloadTotal]
  norm_num

/-! ### Claim C10: the order list is global -/

/-- C10: the order list endpoint returns every persisted order, newest
first by `createdAt`, and its output does not depend on the requesting
user, so any two users see the identical list including orders owned by
others. -/
theorem orderGet_global_spec (u1 u2 : Nat) (orders : List OrderRec) :
    orderGet u1 orders = orderGet u2 orders ∧
    (orderGet u1 orders).Perm orders ∧
    (orderGet u1 orders).Pairwise fun a b => b.createdAt ≤ a.createdAt := by
  haveI : IsTotal OrderRec (fun a b => b.createdAt ≤ a.createdAt) :=
    ⟨fun a b => le_total _ _⟩
  haveI : IsTrans OrderRec (fun a b => b.createdAt ≤ a.createdAt) :=
    ⟨fun a b c hab hbc => le_trans hbc hab⟩
  exact ⟨rfl, List.perm_insertionSort _ _, List.sorted_insertionSort _ _⟩

end Shop



